import Mathlib

/-!
# Verification of the filetree resumable-upload core

A shallow embedding of the resumable-upload (TUS) core of the `filetree`
backend, translated from:

* `backend/routes/tus.py`           — protocol handler routes
* `backend/services/tus_metadata_store.py` — SQLite session store
* `backend/services/file_service.py`       — import / reconciler
* `backend/services/dedup_service.py`      — hardlink deduplicator
* `backend/services/r2_service.py`         — cloud usage counters

Modelling conventions:

* SQLite rows become a Lean structure; the dynamically typed Python dicts
  that flow between route and services are association lists over a small
  value type `PyVal`, so that key errors (`upload['username']` on a row
  that only has `user_id`) are observable.
* Byte strings are `List Nat`; timestamps are `Int` epoch seconds.
* Keyword-argument binding of a Python call is modelled explicitly where
  the code depends on it (the route calls the store with keywords the
  store's signature does not accept, which raises `TypeError` at runtime).
* Filesystem directories are association lists from path/name to content;
  paths in a directory are unique, so erasure removes the binding.
-/

namespace Filetree

/-! ## Association lists (Python dicts / directory listings) -/

def aget {K V : Type} [DecidableEq K] : List (K × V) → K → Option V
  | [], _ => none
  | (k', v) :: t, k => if k = k' then some v else aget t k

/-- Python dict assignment `d[k] = v`: replace the binding if present,
otherwise append a new one. -/
def aset {K V : Type} [DecidableEq K] : List (K × V) → K → V → List (K × V)
  | [], k, v => [(k, v)]
  | (k', v') :: t, k, v => if k = k' then (k, v) :: t else (k', v') :: aset t k v

/-- Removal of a binding (`os.remove`, `del`).  A filesystem path occurs at
most once in a directory listing, so removing every occurrence coincides
with removing the single one. -/
def aerase {K V : Type} [DecidableEq K] (l : List (K × V)) (k : K) : List (K × V) :=
  l.filter (fun p => p.1 ≠ k)

/-! ## Python string primitives

The Lean core string functions are compiled with well-founded recursion
and do not reduce inside the kernel, so the Python primitives the source
uses (`str.split`, `str.strip`, `in`, `str.join`) are given structural
implementations over `List Char`. -/

def splitOnCharAux (c : Char) : List Char → List Char → List (List Char)
  | [], cur => [cur.reverse]
  | x :: xs, cur =>
    if x = c then cur.reverse :: splitOnCharAux c xs []
    else splitOnCharAux c xs (x :: cur)

/-- Python `s.split(c)` for a one-character separator. -/
def splitOnChar (c : Char) (s : String) : List String :=
  (splitOnCharAux c s.toList []).map List.asString

def isSpaceChar (c : Char) : Bool :=
  c = ' ' || c = '\t' || c = '\n' || c = '\r'

/-- Python `s.strip()`. -/
def pyStrip (s : String) : String :=
  ((s.toList.dropWhile isSpaceChar).reverse.dropWhile isSpaceChar).reverse.asString

/-- Python `sep.join(parts)`. -/
def joinWith (sep : String) : List String → String
  | [] => ""
  | [x] => x
  | x :: y :: xs => x ++ sep ++ joinWith sep (y :: xs)

/-! ## Upload session rows (`tus_metadata_store.py`)

The SQLite table `tus_uploads` from `TusMetadataStore._init_db`.  The
`user_id` column is declared INTEGER but the route stores the username
string in it (SQLite is dynamically typed), so it is a `String` here.
`status` is the raw TEXT column; the store only ever writes `"active"`,
`"completed"` and `"aborted"`. -/

structure UploadRec where
  id : String
  fingerprint : String
  user_id : String
  r2_upload_id : String
  r2_key : String
  offset : Nat
  size : Nat
  filename : String
  content_type : String
  metadata : List (String × String)
  parts : List String
  status : String
  created_at : Int
  updated_at : Int
  deriving DecidableEq, Repr

/-- Values held by the Python dicts that cross the route/service boundary. -/
inductive PyVal
  | str (s : String)
  | int (n : Int)
  | strMap (m : List (String × String))
  | strList (l : List String)
  deriving DecidableEq, Repr

/-- Model of `TusMetadataStore._row_to_dict`: the exact key set exposed to callers.
Note there is a `"user_id"` key and no `"username"` key. -/
def row_to_dict (u : UploadRec) : List (String × PyVal) :=
  [("id", PyVal.str u.id),
   ("fingerprint", PyVal.str u.fingerprint),
   ("user_id", PyVal.str u.user_id),
   ("r2_upload_id", PyVal.str u.r2_upload_id),
   ("r2_key", PyVal.str u.r2_key),
   ("offset", PyVal.int u.offset),
   ("size", PyVal.int u.size),
   ("filename", PyVal.str u.filename),
   ("content_type", PyVal.str u.content_type),
   ("metadata", PyVal.strMap u.metadata),
   ("parts", PyVal.strList u.parts),
   ("status", PyVal.str u.status),
   ("created_at", PyVal.int u.created_at),
   ("updated_at", PyVal.int u.updated_at)]

/-- Model of `TusMetadataStore.get_upload`: `SELECT * FROM tus_uploads WHERE id = ?`. -/
def get_upload (sessions : List UploadRec) (uploadId : String) : Option UploadRec :=
  sessions.find? (fun u => u.id == uploadId)

/-- Model of `TusMetadataStore.update_offset` as called by the route
(`parts=[]`, hence the parts column is overwritten with the empty list). -/
def update_offset (sessions : List UploadRec) (uploadId : String) (offset : Nat)
    (now : Int) : List UploadRec :=
  sessions.map fun u =>
    if u.id = uploadId then { u with offset := offset, parts := [], updated_at := now } else u

/-- Model of `TusMetadataStore.mark_completed`. -/
def mark_completed (sessions : List UploadRec) (uploadId : String) (now : Int) :
    List UploadRec :=
  sessions.map fun u =>
    if u.id = uploadId then { u with status := "completed", updated_at := now } else u

/-- Model of `TusMetadataStore.get_upload_by_fingerprint`:
`WHERE fingerprint = ? AND user_id = ? AND status = 'active'
 ORDER BY created_at DESC LIMIT 1`; the `ORDER BY ... LIMIT 1` is the
argmax of `created_at` among the matches. -/
def get_upload_by_fingerprint (sessions : List UploadRec) (fingerprint : String)
    (userId : String) : Option UploadRec :=
  (sessions.filter fun u =>
      u.fingerprint == fingerprint && u.user_id == userId && u.status == "active").foldl
    (fun best u =>
      match best with
      | none => some u
      | some b => if b.created_at < u.created_at then some u else some b)
    none

/-! ## The PATCH route (`upload_tus_chunk` in `routes/tus.py`) -/

/-- Server state touched by the TUS routes: the session table and the
temp folder (`settings.paths.tus_temp_folder`, upload id ↦ file bytes). -/
structure TusState where
  sessions : List UploadRec
  temp : List (String × List Nat)
  deriving DecidableEq, Repr

inductive PatchResult
  | notFound404
  | conflict409
  | badRequest400
  | noContent204 (newOffset : Nat)
  deriving DecidableEq, Repr

/-- Model of `upload_tus_chunk` (the PATCH route), with the
chunk body given up front.  The second component is the argument handed to
`background_tasks.add_task(finalize_upload_local, upload)` when the write
completes the upload — the *pre-patch* row dict, exactly as the route
captured it. -/
def upload_tus_chunk (st : TusState) (uploadId : String) (uploadOffset : Nat)
    (chunk : List Nat) (now : Int) :
    PatchResult × Option (List (String × PyVal)) × TusState :=
  match get_upload st.sessions uploadId with
  | none => (PatchResult.notFound404, none, st)
  | some upload =>
    let current_offset := upload.offset
    if uploadOffset ≠ current_offset then
      (PatchResult.conflict409, none, st)
    else
      match aget st.temp uploadId with
      | none => (PatchResult.notFound404, none, st)
      | some content =>
        let chunk_size := chunk.length
        if upload.size < current_offset + chunk_size then
          (PatchResult.badRequest400, none, st)
        else
          let temp' := aset st.temp uploadId (content ++ chunk)
          let new_offset := current_offset + chunk_size
          let sessions' := update_offset st.sessions uploadId new_offset now
          if new_offset = upload.size then
            (PatchResult.noContent204 new_offset, some (row_to_dict upload),
             { sessions := mark_completed sessions' uploadId now, temp := temp' })
          else
            (PatchResult.noContent204 new_offset, none,
             { sessions := sessions', temp := temp' })

/-! ## Finalization (`finalize_upload_local` in `routes/tus.py` and
`FileService.import_file` in `services/file_service.py`)

The finalizer only touches the temp folder, one owner's folder and that
owner's rows in `files.db`, so the embedding carries exactly those. -/

/-- Model of `os.path.basename` (POSIX): the part after the last `/`. -/
def basename (s : String) : String :=
  (splitOnChar '/' s).getLastD s

/-- Model of `os.path.splitext`: split at the last dot, unless every character
before it is a dot (so `".txt"` has no extension). -/
def splitext (s : String) : String × String :=
  let cs := s.toList
  let lead := (cs.takeWhile (fun c => c = '.')).length
  let body := cs.drop lead
  match body.reverse.findIdx? (fun c => c = '.') with
  | none => (s, "")
  | some rIdx =>
    let dotPos := lead + (body.length - 1 - rIdx)
    ((cs.take dotPos).asString, (cs.drop dotPos).asString)

/-- The candidate names tried by the collision loop
`unique_name = filename; while exists: unique_name = f"{name}_{counter}{ext}"`. -/
def nameCandidate (filename name ext : String) : Nat → String
  | 0 => filename
  | k + 1 => name ++ "_" ++ toString (k + 1) ++ ext

/-- The collision-resolution `while` loop of `import_file` /
`save_file`: the first candidate name not already present in the folder.
The loop in the source is unbounded; searching the first
`existing.length + 1` candidates is equivalent, because the candidates
are pairwise distinct strings and `existing` cannot contain them all.
The fallback arm is therefore unreachable on real directory listings. -/
def uniqueName (existing : List String) (filename : String) : String :=
  let ne := splitext filename
  match (List.range (existing.length + 1)).find?
      (fun i => !(existing.contains (nameCandidate filename ne.1 ne.2 i))) with
  | some i => nameCandidate filename ne.1 ne.2 i
  | none => nameCandidate filename ne.1 ne.2 (existing.length + 1)

/-- One owner's storage folder (filename ↦ bytes) and that owner's rows
in the `files` table of `files.db` (filename ↦ `size_bytes`; the table
has `UNIQUE(username, filename)`). -/
structure OwnerState where
  folder : List (String × List Nat)
  dbRows : List (String × Nat)
  deriving DecidableEq, Repr

/-- Model of `FileService.import_file`, projected to the temp folder and one
owner.  Moves the source file into the owner's folder under a
collision-free name, then registers the file in `files.db` with the
moved file's real size (`stat.st_size`).  Returns `none` (and changes
nothing) if the source path does not exist.  The trailing
`dedup_service.deduplicate` call is the Deduplicator's concern
(`deduplicate` below); it never changes the name set of the folder. -/
def import_file (temp : List (String × List Nat)) (owner : OwnerState)
    (sourceId : String) (filename : String) :
    Option String × List (String × List Nat) × OwnerState :=
  let filename := basename filename
  match aget temp sourceId with
  | none => (none, temp, owner)
  | some content =>
    let unique := uniqueName (owner.folder.map Prod.fst) filename
    (some unique, aerase temp sourceId,
     { folder := owner.folder ++ [(unique, content)],
       dbRows := owner.dbRows ++ [(unique, content.length)] })

inductive FinalizeResult
  | keyErr (k : String)
  | tempMissing
  | importFailed
  | imported (finalName : String)
  deriving DecidableEq, Repr

/-- Model of `finalize_upload_local` from `routes/tus.py`.  The argument is the
Python dict handed to `background_tasks.add_task`; the function reads
`upload['id']`, `upload['username']` and `upload['filename']` before its
`try` block, so a missing key raises `KeyError` out of the task.  Then:
if the temp file is gone it logs and returns (this is the guard that
makes a duplicate trigger a no-op), otherwise it imports the file.
Audit logging and the user-update notification are external
collaborators and carry no state modelled here. -/
def finalize_upload_local (upload : List (String × PyVal))
    (temp : List (String × List Nat)) (owner : OwnerState) :
    FinalizeResult × List (String × List Nat) × OwnerState :=
  match aget upload "id" with
  | some (PyVal.str uploadId) =>
    match aget upload "username" with
    | some (PyVal.str _username) =>
      match aget upload "filename" with
      | some (PyVal.str filename) =>
        match aget temp uploadId with
        | none => (FinalizeResult.tempMissing, temp, owner)
        | some _ =>
          match import_file temp owner uploadId filename with
          | (none, t', o') => (FinalizeResult.importFailed, t', o')
          | (some n, t', o') => (FinalizeResult.imported n, t', o')
      | _ => (FinalizeResult.keyErr "filename", temp, owner)
    | _ => (FinalizeResult.keyErr "username", temp, owner)
  | _ => (FinalizeResult.keyErr "id", temp, owner)

/-! ## Metadata parsing and the POST route (`routes/tus.py`) -/

/-- Model of `pair.split(' ', 1)`: key before the first space, the remainder
(further spaces included) as the value. -/
def splitFirstSpace (s : String) : String × String :=
  match splitOnChar ' ' s with
  | [] => (s, "")
  | k :: rest => (k, joinWith " " rest)

/-- One iteration of the loop in `parse_tus_metadata`.  `b64` stands for
`base64.b64decode(value).decode('utf-8')`; `none` is the exception path
(invalid base64 or invalid UTF-8), which the source logs and skips. -/
def parseStep (b64 : String → Option String) (acc : List (String × String))
    (pair : String) : List (String × String) :=
  let pair := pyStrip pair
  if pair.toList.contains ' ' = false then acc
  else
    let kv := splitFirstSpace pair
    match b64 kv.2 with
    | some decoded => aset acc kv.1 decoded
    | none => acc

/-- Model of `parse_tus_metadata`: a missing (`None`) or empty header gives the empty dict
(`if not metadata_header`); otherwise the comma-separated pairs are
folded into a dict, bad pairs skipped. -/
def parse_tus_metadata (b64 : String → Option String) :
    Option String → List (String × String)
  | none => []
  | some h => if h = "" then [] else (splitOnChar ',' h).foldl (parseStep b64) []

/-- Model of `calculate_fingerprint`: `'-'.join([filename, str(size)] + maybe
modified)`; an empty `modified` string is falsy in Python and is not
appended. -/
def calculate_fingerprint (filename : String) (size : Nat)
    (modified : Option String) : String :=
  let base := filename ++ "-" ++ toString size
  match modified with
  | some m => if m = "" then base else base ++ "-" ++ m
  | none => base

/-- A parameter of a Python signature: its name and whether it carries a
default value. -/
structure PyParam where
  name : String
  hasDefault : Bool
  deriving DecidableEq, Repr

/-- The parameter list of `TusMetadataStore.create_upload`
(`services/tus_metadata_store.py`). -/
def create_upload_params : List PyParam :=
  [⟨"upload_id", false⟩, ⟨"fingerprint", false⟩, ⟨"user_id", false⟩,
   ⟨"r2_upload_id", false⟩, ⟨"r2_key", false⟩, ⟨"size", false⟩,
   ⟨"filename", false⟩, ⟨"content_type", true⟩, ⟨"metadata", true⟩]

/-- The keyword set `create_tus_upload` passes to
`metadata_store.create_upload` (`routes/tus.py`). -/
def create_call_kwargs : List String :=
  ["upload_id", "fingerprint", "username", "size", "filename",
   "content_type", "metadata"]

/-- Python keyword binding: a call with these keywords succeeds iff every
keyword names a declared parameter and every parameter without a default
is supplied; otherwise the call raises `TypeError`. -/
def kwargsBind (params : List PyParam) (kwargs : List String) : Bool :=
  kwargs.all (fun k => params.any (fun p => p.name == k)) &&
  params.all (fun p => p.hasDefault || kwargs.contains p.name)

inductive CreateResponse
  | ok200 (offset : Nat)
  | created201 (uploadId : String)
  | unauthorized401
  | serverError500
  deriving DecidableEq, Repr

/-- Model of `create_tus_upload` (POST `/api/upload/tus`).  `b64` is the metadata
value decoder; `auth` is `user_service.get_user_by_password` (password ↦
username, `none` = invalid); `newId` is the generated `uuid.uuid4()`.
The resume branch returns 200 with the existing session's offset and
touches nothing.  In the new-session branch the route touches the empty
temp file and then calls `metadata_store.create_upload` with keyword set
`create_call_kwargs`; binding that against `create_upload_params` fails
(`username` is not a parameter; `user_id`, `r2_upload_id` and `r2_key`
have no defaults and are absent), so the call raises `TypeError`, the
route's trailing `except Exception` answers HTTP 500, and the orphan temp
file stays (the `file_path.unlink` cleanup is only reached when
`create_upload` returns a falsy value, not when it raises). -/
def create_tus_upload (b64 : String → Option String)
    (auth : String → Option String) (st : TusState) (header : Option String)
    (uploadLength : Nat) (newId : String) (now : Int) :
    CreateResponse × TusState :=
  let metadata := parse_tus_metadata b64 header
  let filename := (aget metadata "filename").getD "unnamed"
  let content_type := (aget metadata "filetype").getD "application/octet-stream"
  match aget metadata "password" with
  | none => (CreateResponse.unauthorized401, st)
  | some password =>
    if password = "" then (CreateResponse.unauthorized401, st)
    else
      match auth password with
      | none => (CreateResponse.unauthorized401, st)
      | some username =>
        let fingerprint :=
          calculate_fingerprint filename uploadLength (aget metadata "lastModified")
        let createNew : CreateResponse × TusState :=
          let temp' := aset st.temp newId []
          if kwargsBind create_upload_params create_call_kwargs then
            -- dead branch: what the store would insert if the call bound
            (CreateResponse.created201 newId,
             { sessions := st.sessions ++
                 [{ id := newId, fingerprint := fingerprint, user_id := username,
                    r2_upload_id := "", r2_key := "", offset := 0,
                    size := uploadLength, filename := filename,
                    content_type := content_type, metadata := metadata,
                    parts := [], status := "active", created_at := now,
                    updated_at := now }],
               temp := temp' })
          else
            (CreateResponse.serverError500, { st with temp := temp' })
        match get_upload_by_fingerprint st.sessions fingerprint username with
        | some existing =>
          if existing.status = "active" then (CreateResponse.ok200 existing.offset, st)
          else createNew
        | none => createNew

/-- A value decoder for witnesses: only `"cHc="` (base64 of `pw`)
decodes. -/
def demoB64 : String → Option String :=
  fun s => if s = "cHc=" then some "pw" else none

/-- An owner-credential lookup for witnesses: password `pw` belongs to
`alice`. -/
def demoAuth : String → Option String :=
  fun p => if p = "pw" then some "alice" else none

/-- A concrete active session used in witnesses. -/
def sampleSession : UploadRec :=
  { id := "u1", fingerprint := "f", user_id := "alice", r2_upload_id := "",
    r2_key := "", offset := 3, size := 10, filename := "a.txt",
    content_type := "text/plain", metadata := [], parts := [],
    status := "active", created_at := 0, updated_at := 0 }

/-- A concrete server state used in witnesses. -/
def sampleState : TusState :=
  { sessions := [sampleSession], temp := [("u1", [1, 2, 3])] }

/-- A session with 6 of 10 declared bytes received (the spec's finalization
scenario). -/
def c4Session : UploadRec :=
  { sampleSession with offset := 6 }

/-- Server state for the finalization scenario: session `u1` at offset 6 of
10, temp file holding its 6 bytes. -/
def c4State : TusState :=
  { sessions := [c4Session], temp := [("u1", [0, 1, 2, 3, 4, 5])] }

/-- An owner with empty storage and no index rows. -/
def emptyOwner : OwnerState :=
  { folder := [], dbRows := [] }

/-- An active session whose fingerprint is the one a Create without a
`filename` key computes (`unnamed`, length 10, no `lastModified`). -/
def c10Session : UploadRec :=
  { sampleSession with fingerprint := "unnamed-10" }

/-- A completed session as the store records it: all 10 declared bytes
received. -/
def c5Session : UploadRec :=
  { sampleSession with offset := 10, status := "completed" }

/-- The temp folder holding that session's fully received backing file. -/
def c5Temp : List (String × List Nat) :=
  [("u1", [0, 1, 2, 3, 4, 5, 6, 7, 8, 9])]

/-! ## The Deduplicator (`services/dedup_service.py`)

Hardlink semantics need inode identity: a filesystem is a table of
directory entries (path ↦ inode number) plus a table of inode contents.
Removing an entry never clears the content table — bytes stay readable
through any remaining entry, which is exactly hardlink behaviour.
SHA-256 is idealized as an injective digest, taken to be the byte string
itself. -/

structure HardFs where
  links : List (String × Nat)
  contents : List (Nat × List Nat)
  deriving DecidableEq, Repr

/-- Reading a file: follow the path's entry to its inode's bytes. -/
def fsRead (fs : HardFs) (p : String) : Option (List Nat) :=
  (aget fs.links p).bind (aget fs.contents)

/-- Model of `os.remove`: drop the path's directory entry (the inode and its bytes
outlive it while other entries point there). -/
def osRemove (fs : HardFs) (p : String) : HardFs :=
  { fs with links := aerase fs.links p }

/-- Model of `os.link(src, dst)`: a new directory entry sharing `src`'s inode. -/
def osLink (fs : HardFs) (src dst : String) : HardFs :=
  match aget fs.links src with
  | none => fs
  | some ino => { fs with links := aset fs.links dst ino }

/-- Model of `os.path.samefile`: same inode (both paths assumed to exist, as the
call site guarantees). -/
def samefile (fs : HardFs) (a b : String) : Bool :=
  match aget fs.links a, aget fs.links b with
  | some i, some j => i == j
  | _, _ => false

/-- Model of `DedupService.calculate_hash`, idealized injective digest. -/
def calculate_hash (content : List Nat) : List Nat :=
  content

/-- Model of `DedupService.deduplicate`: hash the file, look it up in the
`hash ↦ canonical path` index; on a hit with the canonical path still
present and a different inode, replace the new file by a hardlink to the
canonical path; on a hit with the canonical path gone, repoint the index
(self-healing); on a miss, register the file as canonical.  A read
failure takes the `except` arm and returns `False` unchanged. -/
def deduplicate (fs : HardFs) (index : List (List Nat × String)) (path : String) :
    Bool × HardFs × List (List Nat × String) :=
  match fsRead fs path with
  | none => (false, fs, index)
  | some content =>
    let file_hash := calculate_hash content
    match aget index file_hash with
    | some existing =>
      if (aget fs.links existing).isSome then
        if samefile fs path existing then (true, fs, index)
        else (true, osLink (osRemove fs path) existing path, index)
      else (false, fs, aset index file_hash path)
    | none => (false, fs, aset index file_hash path)

/-- A two-file filesystem with identical contents on distinct inodes,
for witnesses. -/
def twinFs : HardFs :=
  { links := [("a.txt", 1), ("b.txt", 2)],
    contents := [(1, [7, 8]), (2, [7, 8])] }

/-! ## File Index reconciliation (`FileService.reconcile_all_users`)

Per user directory the source builds the *set* of on-disk filenames
(recursive walk) and the set of indexed filenames (`files.db` has
`UNIQUE(username, filename)`), inserts rows for `disk − db` and deletes
rows for `db − disk`, accumulating both counts.  Disk state is a fixed
function user ↦ filename set (no intervening disk changes), the index a
mutable function updated user by user. -/

def reconcile_all_users (disk : String → Finset String) :
    List String → (String → Finset String) → (Nat × Nat) × (String → Finset String)
  | [], db => ((0, 0), db)
  | u :: rest, db =>
    let disk_filenames := disk u
    let db_filenames := db u
    let to_insert := disk_filenames \ db_filenames
    let to_delete := db_filenames \ disk_filenames
    let dbNext : String → Finset String := fun v =>
      if v = u then (db_filenames \ to_delete) ∪ to_insert else db v
    let r := reconcile_all_users disk rest dbNext
    ((to_insert.card + r.1.1, to_delete.card + r.1.2), r.2)

/-- Concrete disk state for witnesses: alice has `a`, `b`; bob has `c`. -/
def demoDisk : String → Finset String :=
  fun v => if v = "alice" then {"a", "b"} else if v = "bob" then {"c"} else ∅

/-- Concrete index state for witnesses: alice is indexed with `b` and a
stale `z`; bob is unindexed. -/
def demoDb : String → Finset String :=
  fun v => if v = "alice" then {"b", "z"} else ∅

/-! ## The stale-upload Janitor -/

/-- The deletion predicate of `TusMetadataStore.cleanup_old_uploads`:
`status IN ('completed','aborted') AND created_at < now − days·86400`
(`cutoff = utcnow().timestamp() − days·24·3600`). -/
def staleSession (now : Int) (days : Nat) (u : UploadRec) : Bool :=
  (u.status == "completed" || u.status == "aborted") &&
    decide (u.created_at < now - days * 86400)

/-- Model of `TusMetadataStore.cleanup_old_uploads`: the surviving rows and the
deleted row count (`cursor.rowcount`). -/
def cleanup_old_uploads (sessions : List UploadRec) (now : Int) (days : Nat) :
    List UploadRec × Nat :=
  (sessions.filter (fun u => !(staleSession now days u)),
   (sessions.filter (staleSession now days)).length)

/-- The method names defined on `TusMetadataStore`
(`services/tus_metadata_store.py`, public surface).  The route-level
sweep `cleanup_expired_uploads` calls
`metadata_store.cleanup_stale_uploads(days=1)`, a name not in this list,
so that call raises `AttributeError`, the surrounding `except` logs it,
and the sweep removes neither session rows nor temp files. -/
def tus_store_methods : List String :=
  ["create_upload", "get_upload", "get_upload_by_fingerprint",
   "update_offset", "mark_completed", "mark_aborted", "delete_upload",
   "cleanup_old_uploads"]

/-- A completed session younger than the retention window. -/
def youngCompleted : UploadRec :=
  { sampleSession with status := "completed" }

/-! ## Cloud usage counters (`services/r2_service.py`) -/

structure Usage where
  month : String
  storage_bytes_approx : Int
  requests_class_a : Int
  requests_class_b : Int
  deriving DecidableEq, Repr

/-- The default dict built at the top of `R2Service._load_usage`. -/
def default_usage (curMonth : String) : Usage :=
  { month := curMonth, storage_bytes_approx := 0,
    requests_class_a := 0, requests_class_b := 0 }

/-- Model of `R2Service._load_usage`: a missing or unreadable usage file (`none`)
or a stored month different from the wall-clock month yields the default
(all counters zero, new period); otherwise the stored data is kept. -/
def load_usage (curMonth : String) (stored : Option Usage) : Usage :=
  match stored with
  | none => default_usage curMonth
  | some data => if data.month ≠ curMonth then default_usage curMonth else data

/-- Model of `R2Service._increment_usage`: add the per-call deltas, clamping the
storage counter at zero (`if ... < 0: ... = 0`). -/
def increment_usage (u : Usage) (class_a class_b : Nat) (bytes_added : Int) :
    Usage :=
  let s := u.storage_bytes_approx + bytes_added
  { month := u.month,
    requests_class_a := u.requests_class_a + class_a,
    requests_class_b := u.requests_class_b + class_b,
    storage_bytes_approx := if s < 0 then 0 else s }

/-- The `_increment_usage` call sites in `r2_service.py`, one constructor
per call: presigned PUT/GET URL generation, multipart-upload creation,
object deletion, whole-file upload (adds the file size), the
transient-storage download (removes the downloaded size), and the
download fallback when the local size check fails. -/
inductive R2Event
  | presignPut
  | presignGet
  | createMultipart
  | deleteObject
  | uploadFile (size : Nat)
  | downloadAndDelete (size : Nat)
  | downloadNoSize
  deriving DecidableEq, Repr

/-- Each call site with its deltas as written in the source. -/
def applyEvent (u : Usage) : R2Event → Usage
  | R2Event.presignPut => increment_usage u 1 0 0
  | R2Event.presignGet => increment_usage u 0 1 0
  | R2Event.createMultipart => increment_usage u 1 0 0
  | R2Event.deleteObject => increment_usage u 1 0 0
  | R2Event.uploadFile size => increment_usage u 1 0 size
  | R2Event.downloadAndDelete size => increment_usage u 0 1 (-(size : Int))
  | R2Event.downloadNoSize => increment_usage u 0 1 0

/-- A concrete usage record from an earlier period, for witnesses. -/
def demoUsage : Usage :=
  { month := "2025-12", storage_bytes_approx := 5,
    requests_class_a := 3, requests_class_b := 4 }

/-! ## Theorems -/

theorem aget_aset_self {K V : Type} [DecidableEq K] (l : List (K × V)) (k : K) (v : V) :
    aget (aset l k v) k = some v := by
  induction l with
  | nil => simp [aset, aget]
  | cons h t ih =>
    by_cases hk : k = h.1
    · simp [aset, hk.symm, aget]
    · cases h with
      | mk k' v' =>
        simp only [aset]
        rw [if_neg (by simpa using hk)]
        simp [aget, hk, ih]

theorem aget_aset_ne {K V : Type} [DecidableEq K] (l : List (K × V)) (k k' : K) (v : V)
    (h : k' ≠ k) : aget (aset l k v) k' = aget l k' := by
  induction l with
  | nil => simp [aset, aget, h]
  | cons p t ih =>
    cases p with
    | mk pk pv =>
      by_cases hk : k = pk
      · subst hk
        simp [aset, aget, h]
      · simp only [aset]
        rw [if_neg (by simpa using hk)]
        by_cases hk' : k' = pk
        · simp [aget, hk']
        · simp [aget, hk', ih]

theorem aerase_cons {K V : Type} [DecidableEq K] (p : K × V) (t : List (K × V)) (k : K) :
    aerase (p :: t) k = if p.1 = k then aerase t k else p :: aerase t k := by
  by_cases h : p.1 = k <;> simp [aerase, List.filter_cons, h]

theorem aget_aerase_self {K V : Type} [DecidableEq K] (l : List (K × V)) (k : K) :
    aget (aerase l k) k = none := by
  induction l with
  | nil => rfl
  | cons p t ih =>
    rw [aerase_cons]
    by_cases hk : p.1 = k
    · simpa [hk] using ih
    · cases p with
      | mk pk pv =>
        have hk' : ¬ k = pk := fun h => hk h.symm
        simp only [aget, if_neg hk, if_neg hk']
        exact ih

theorem aget_aerase_ne {K V : Type} [DecidableEq K] (l : List (K × V)) (k k' : K)
    (h : k' ≠ k) : aget (aerase l k) k' = aget l k' := by
  induction l with
  | nil => rfl
  | cons p t ih =>
    rw [aerase_cons]
    cases p with
    | mk pk pv =>
      by_cases hk : pk = k
      · subst hk
        have hk' : ¬ k' = pk := h
        simp [aget, hk', ih]
      · by_cases hk2 : k' = pk
        · simp [aget, hk, hk2]
        · simp [aget, hk, hk2, ih]

/-- C1: a PATCH on a known session whose declared `Upload-Offset` differs
from the stored offset returns 409 and leaves the whole server state —
stored offset and backing file included — unchanged; no finalization is
scheduled and no bytes are written. -/
theorem patch_offset_conflict_unchanged (st : TusState) (uploadId : String)
    (uploadOffset : Nat) (chunk : List Nat) (now : Int) (u : UploadRec)
    (hu : get_upload st.sessions uploadId = some u)
    (hoff : uploadOffset ≠ u.offset) :
    upload_tus_chunk st uploadId uploadOffset chunk now =
      (PatchResult.conflict409, none, st) := by
  simp [upload_tus_chunk, hu, hoff]

/-- Witness for C1 at a concrete state: one active session at offset 3,
a PATCH declaring offset 5 is rejected with 409 and changes nothing. -/
theorem patch_offset_conflict_unchanged_witness :
    upload_tus_chunk sampleState "u1" 5 [9, 9] 7 =
      (PatchResult.conflict409, none, sampleState) :=
  patch_offset_conflict_unchanged sampleState "u1" 5 [9, 9] 7 sampleSession
    (by decide) (by decide)

/-- C3: a PATCH that passes the offset check but would overrun the declared
size (`stored_offset + len(chunk) > size`) is rejected with 400 and writes
nothing; and whatever branch is taken, when the backing file's length
equals the stored offset beforehand (the normal invariant) the Chunk
Writer never leaves the backing file longer than the declared size. -/
theorem patch_size_guard (st : TusState) (uploadId : String) (chunk : List Nat)
    (now : Int) (u : UploadRec) (content : List Nat)
    (hu : get_upload st.sessions uploadId = some u)
    (hc : aget st.temp uploadId = some content)
    (hlen : content.length = u.offset)
    (hinv : u.offset ≤ u.size) :
    (u.size < u.offset + chunk.length →
      upload_tus_chunk st uploadId u.offset chunk now =
        (PatchResult.badRequest400, none, st)) ∧
    (∀ c', aget (upload_tus_chunk st uploadId u.offset chunk now).2.2.temp uploadId
        = some c' → c'.length ≤ u.size) := by
  constructor
  · intro hover
    simp [upload_tus_chunk, hu, hc, hover]
  · intro c' hc'
    by_cases hover : u.size < u.offset + chunk.length
    · simp [upload_tus_chunk, hu, hc, hover] at hc'
      rw [← hc']
      omega
    · by_cases hfin : u.offset + chunk.length = u.size
      · simp [upload_tus_chunk, hu, hc, hover, hfin] at hc'
        rw [aget_aset_self] at hc'
        injection hc' with h
        rw [← h]
        simp [List.length_append, hlen]
        omega
      · simp [upload_tus_chunk, hu, hc, hover, hfin] at hc'
        rw [aget_aset_self] at hc'
        injection hc' with h
        rw [← h]
        simp [List.length_append, hlen]
        omega

/-- Witness for C3: appending 8 bytes at offset 3 of a 10-byte upload is
rejected with 400 and the state is untouched. -/
theorem patch_size_guard_witness :
    upload_tus_chunk sampleState "u1" 3 [4, 5, 6, 7, 8, 9, 10, 11] 7 =
      (PatchResult.badRequest400, none, sampleState) :=
  (patch_size_guard sampleState "u1" [4, 5, 6, 7, 8, 9, 10, 11] 7 sampleSession
      [1, 2, 3] (by decide) (by decide) (by decide) (by decide)).1 (by decide)

/-- C4 (code bug): the spec's finalization scenario, third append.  The
PATCH that brings the offset from 6 to the declared size 10 does return
204, mark the session `completed` and schedule `finalize_upload_local`
with the session dict — but that dict, produced by
`TusMetadataStore._row_to_dict`, has a `user_id` key and no `username`
key, while `finalize_upload_local` reads `upload['username']` before its
`try` block.  The scheduled task therefore dies with a `KeyError` and the
file never reaches the owner's storage or the File Index. -/
theorem patch_completion_schedules_broken_finalize :
    (upload_tus_chunk c4State "u1" 6 [6, 7, 8, 9] 5).1 = PatchResult.noContent204 10 ∧
    (upload_tus_chunk c4State "u1" 6 [6, 7, 8, 9] 5).2.1 = some (row_to_dict c4Session) ∧
    ((get_upload (upload_tus_chunk c4State "u1" 6 [6, 7, 8, 9] 5).2.2.sessions "u1").map
        UploadRec.status) = some "completed" ∧
    aget (row_to_dict c4Session) "username" = none ∧
    finalize_upload_local (row_to_dict c4Session)
        (upload_tus_chunk c4State "u1" 6 [6, 7, 8, 9] 5).2.2.temp emptyOwner =
      (FinalizeResult.keyErr "username",
       (upload_tus_chunk c4State "u1" 6 [6, 7, 8, 9] 5).2.2.temp, emptyOwner) := by
  decide

/-- C5 (code bug): on a real completed session finalization is not
"idempotent with exactly one import" — it never imports at all.  The
finalizer's only call site hands it the store's row dict
(`TusMetadataStore._row_to_dict`), which exposes `user_id` and no
`username` key, while `finalize_upload_local` reads `upload['username']`
before its `try` block.  So the first run and the duplicate run both die
with the same `KeyError`, touching neither the temp folder nor the
owner's storage nor the File Index: two runs produce zero index entries
and zero files, not the claimed exactly one. -/
theorem finalize_twice_zero_imports :
    (let d := row_to_dict c5Session
     let r1 := finalize_upload_local d c5Temp emptyOwner
     let r2 := finalize_upload_local d r1.2.1 r1.2.2
     aget d "username" = none ∧
     r1 = (FinalizeResult.keyErr "username", c5Temp, emptyOwner) ∧
     r2 = (FinalizeResult.keyErr "username", c5Temp, emptyOwner) ∧
     r2.2.2.folder.length = emptyOwner.folder.length ∧
     r2.2.2.dbRows.length = emptyOwner.dbRows.length) := by
  decide

/-- C2 (code bug): an authenticated Create with no matching active session
does not create a session at offset 0 with 201: the route's keyword call
into `TusMetadataStore.create_upload` cannot bind (no `username`
parameter; required `user_id`, `r2_upload_id`, `r2_key` absent), the
raised `TypeError` becomes HTTP 500, and the freshly touched empty temp
file is left orphaned while the session table stays empty.  The repo's
own `scripts/test_tus.py` expects 201 here. -/
theorem create_new_session_type_error :
    kwargsBind create_upload_params create_call_kwargs = false ∧
    create_tus_upload demoB64 demoAuth { sessions := [], temp := [] }
        (some "password cHc=") 10 "new-id" 3 =
      (CreateResponse.serverError500,
       { sessions := [], temp := [("new-id", [])] }) := by
  constructor
  · decide
  · decide

/-- The argmax fold used by the fingerprint lookup only ever returns an
element of the list or the initial accumulator. -/
theorem pickLatest_mem (P : UploadRec → Prop) (l : List UploadRec) :
    ∀ (acc : Option UploadRec), (∀ b, acc = some b → P b) → (∀ u ∈ l, P u) →
      ∀ ex, l.foldl (fun best u =>
          match best with
          | none => some u
          | some b => if b.created_at < u.created_at then some u else some b)
        acc = some ex → P ex := by
  induction l with
  | nil =>
    intro acc hacc _ ex h
    exact hacc ex h
  | cons a t ih =>
    intro acc hacc hall ex h
    simp only [List.foldl_cons] at h
    refine ih _ ?_ (fun u hu => hall u (List.mem_cons_of_mem a hu)) ex h
    intro b hb
    cases acc with
    | none =>
      cases hb
      exact hall a (List.mem_cons_self a t)
    | some b0 =>
      dsimp only at hb
      by_cases hlt : b0.created_at < a.created_at
      · rw [if_pos hlt] at hb
        cases hb
        exact hall a (List.mem_cons_self a t)
      · rw [if_neg hlt] at hb
        injection hb with hb'
        subst hb'
        exact hacc b0 rfl

/-- Any session returned by the fingerprint lookup satisfies the
`status = 'active'` filter of its SQL query. -/
theorem get_upload_by_fingerprint_active (sessions : List UploadRec)
    (fingerprint userId : String) (ex : UploadRec)
    (h : get_upload_by_fingerprint sessions fingerprint userId = some ex) :
    ex.status = "active" := by
  unfold get_upload_by_fingerprint at h
  refine pickLatest_mem (fun u => u.status = "active") _ none
    (by intro b hb; cases hb) ?_ ex h
  intro u hu
  have := List.of_mem_filter hu
  simp only [Bool.and_eq_true, beq_iff_eq] at this
  exact this.2

/-- C10: metadata parsing is total and lenient — a pair without a space
separator contributes nothing, a pair whose value fails base64/UTF-8
decoding contributes nothing — and a Create whose parsed metadata has no
`filename` key is not rejected as malformed: it proceeds under the
default name `unnamed` (content type defaulting likewise), as witnessed
by it resuming a session fingerprinted under `unnamed`. -/
theorem parse_metadata_lenient_default_filename :
    (∀ b64 acc pair, (pyStrip pair).toList.contains ' ' = false →
      parseStep b64 acc pair = acc) ∧
    (∀ b64 acc pair, b64 (splitFirstSpace (pyStrip pair)).2 = none →
      parseStep b64 acc pair = acc) ∧
    (∀ b64 auth st header uploadLength newId now ex pw user,
      aget (parse_tus_metadata b64 header) "filename" = none →
      aget (parse_tus_metadata b64 header) "password" = some pw →
      pw ≠ "" → auth pw = some user →
      get_upload_by_fingerprint st.sessions
        (calculate_fingerprint "unnamed" uploadLength
          (aget (parse_tus_metadata b64 header) "lastModified")) user = some ex →
      (create_tus_upload b64 auth st header uploadLength newId now).1 =
        CreateResponse.ok200 ex.offset) := by
  refine ⟨?_, ?_, ?_⟩
  · intro b64 acc pair h
    simp only [parseStep]
    rw [if_pos h]
  · intro b64 acc pair h
    by_cases hsp : (pyStrip pair).toList.contains ' ' = false
    · simp only [parseStep]
      rw [if_pos hsp]
    · simp only [parseStep]
      rw [if_neg hsp, h]
  · intro b64 auth st header uploadLength newId now ex pw user hfn hpw hne hauth hex
    have hact := get_upload_by_fingerprint_active _ _ _ _ hex
    simp [create_tus_upload, hfn, hpw, hne, hauth, hex, hact]

/-- Witness for C10: a Create carrying only a password in its metadata
resumes the active session fingerprinted `unnamed-10` and answers 200
with its offset. -/
theorem parse_metadata_default_filename_witness :
    (create_tus_upload demoB64 demoAuth { sessions := [c10Session], temp := [] }
        (some "password cHc=") 10 "nid" 0).1 = CreateResponse.ok200 3 :=
  parse_metadata_lenient_default_filename.2.2 demoB64 demoAuth
    { sessions := [c10Session], temp := [] } (some "password cHc=") 10 "nid" 0
    c10Session "pw" "alice" (by decide) (by decide) (by decide) (by decide)
    (by decide)

/-- C7: two files with byte-identical content, each passed through the
Deduplicator (no prior canonical path for that digest), end up sharing
the first file's inode; deleting either afterwards leaves the other fully
readable with unchanged content. -/
theorem dedup_shares_inode_and_survives_delete (fs : HardFs)
    (index : List (List Nat × String)) (p1 p2 : String) (c : List Nat)
    (i1 i2 : Nat)
    (hne : p1 ≠ p2)
    (h1 : aget fs.links p1 = some i1)
    (h2 : aget fs.links p2 = some i2)
    (hic : i1 ≠ i2)
    (hc1 : aget fs.contents i1 = some c)
    (hc2 : aget fs.contents i2 = some c)
    (hidx : aget index (calculate_hash c) = none) :
    let r1 := deduplicate fs index p1
    let r2 := deduplicate r1.2.1 r1.2.2 p2
    aget r2.2.1.links p1 = some i1 ∧
    aget r2.2.1.links p2 = some i1 ∧
    fsRead (osRemove r2.2.1 p1) p2 = some c ∧
    fsRead (osRemove r2.2.1 p2) p1 = some c := by
  have hr1 : deduplicate fs index p1 = (false, fs, aset index (calculate_hash c) p1) := by
    simp [deduplicate, fsRead, h1, hc1, hidx]
  have hread2 : fsRead fs p2 = some c := by simp [fsRead, h2, hc2]
  have hsame : samefile fs p2 p1 = false := by
    simp only [samefile, h1, h2]
    exact beq_eq_false_iff_ne.mpr (fun h => hic h.symm)
  have hr2 : deduplicate fs (aset index (calculate_hash c) p1) p2 =
      (true, osLink (osRemove fs p2) p1 p2, aset index (calculate_hash c) p1) := by
    simp [deduplicate, hread2, aget_aset_self, h1, hsame]
  have hlinks : (osLink (osRemove fs p2) p1 p2).links =
      aset (aerase fs.links p2) p2 i1 := by
    simp [osLink, osRemove, aget_aerase_ne _ _ _ hne, h1]
  have hcont : (osLink (osRemove fs p2) p1 p2).contents = fs.contents := by
    simp [osLink, osRemove, aget_aerase_ne _ _ _ hne, h1]
  simp only [hr1, hr2]
  refine ⟨?_, ?_, ?_, ?_⟩
  · rw [hlinks, aget_aset_ne _ _ _ _ hne, aget_aerase_ne _ _ _ hne]
    exact h1
  · rw [hlinks, aget_aset_self]
  · show (aget (aerase (osLink (osRemove fs p2) p1 p2).links p1) p2).bind
        (aget (osLink (osRemove fs p2) p1 p2).contents) = some c
    rw [hlinks, hcont, aget_aerase_ne _ _ _ (Ne.symm hne), aget_aset_self]
    simpa using hc1
  · show (aget (aerase (osLink (osRemove fs p2) p1 p2).links p2) p1).bind
        (aget (osLink (osRemove fs p2) p1 p2).contents) = some c
    rw [hlinks, hcont, aget_aerase_ne _ _ _ hne, aget_aset_ne _ _ _ _ hne,
      aget_aerase_ne _ _ _ hne, h1]
    simpa using hc1

/-- Witness for C7: concrete twin files `a.txt`/`b.txt` on inodes 1 and 2
with identical bytes end up both on inode 1; deleting either leaves the
other reading the original bytes. -/
theorem dedup_shares_inode_witness :
    (let r1 := deduplicate twinFs [] "a.txt"
     let r2 := deduplicate r1.2.1 r1.2.2 "b.txt"
     aget r2.2.1.links "a.txt" = some 1 ∧
     aget r2.2.1.links "b.txt" = some 1 ∧
     fsRead (osRemove r2.2.1 "a.txt") "b.txt" = some [7, 8] ∧
     fsRead (osRemove r2.2.1 "b.txt") "a.txt" = some [7, 8]) :=
  dedup_shares_inode_and_survives_delete twinFs [] "a.txt" "b.txt" [7, 8] 1 2
    (by decide) (by decide) (by decide) (by decide) (by decide) (by decide)
    (by decide)

/-- The row set left for a user after the insert and delete loops is
exactly the disk set. -/
theorem reconcileNewDb (dbU diskU : Finset String) :
    (dbU \ (dbU \ diskU)) ∪ (diskU \ dbU) = diskU := by
  ext x
  simp only [Finset.mem_union, Finset.mem_sdiff]
  tauto

theorem map_congr_mem {α β : Type} (f g : α → β) :
    ∀ (l : List α), (∀ a ∈ l, f a = g a) → l.map f = l.map g
  | [], _ => rfl
  | a :: t, h => by
    simp only [List.map_cons]
    rw [h a (List.mem_cons_self a t),
      map_congr_mem f g t (fun x hx => h x (List.mem_cons_of_mem a hx))]

/-- Unfolding equation of `reconcile_all_users` on a cons cell. -/
theorem reconcile_cons (disk : String → Finset String) (u : String)
    (rest : List String) (db : String → Finset String) :
    reconcile_all_users disk (u :: rest) db =
      (((disk u \ db u).card +
          (reconcile_all_users disk rest
            (fun v => if v = u then (db u \ (db u \ disk u)) ∪ (disk u \ db u)
              else db v)).1.1,
        (db u \ disk u).card +
          (reconcile_all_users disk rest
            (fun v => if v = u then (db u \ (db u \ disk u)) ∪ (disk u \ db u)
              else db v)).1.2),
       (reconcile_all_users disk rest
          (fun v => if v = u then (db u \ (db u \ disk u)) ∪ (disk u \ db u)
            else db v)).2) := rfl

/-- After one run, a scanned user's rows equal their disk set and an
unscanned user's rows are untouched. -/
theorem reconcile_db_result (disk : String → Finset String) :
    ∀ (users : List String) (db : String → Finset String) (v : String),
      (reconcile_all_users disk users db).2 v =
        if v ∈ users then disk v else db v := by
  intro users
  induction users with
  | nil => intro db v; simp [reconcile_all_users]
  | cons u rest ih =>
    intro db v
    rw [reconcile_cons]
    dsimp only
    rw [ih]
    by_cases hv : v ∈ rest
    · simp [hv, List.mem_cons]
    · by_cases hvu : v = u
      · subst hvu
        rw [if_neg hv, if_pos (List.mem_cons_self v rest), if_pos rfl]
        exact reconcileNewDb (db v) (disk v)
      · simp [hv, hvu, List.mem_cons]

/-- One run inserts exactly `|disk − db|` and deletes exactly
`|db − disk|` rows per scanned user. -/
theorem reconcile_counts (disk : String → Finset String) :
    ∀ (users : List String) (db : String → Finset String), users.Nodup →
      (reconcile_all_users disk users db).1.1 =
        (users.map (fun u => (disk u \ db u).card)).sum ∧
      (reconcile_all_users disk users db).1.2 =
        (users.map (fun u => (db u \ disk u).card)).sum := by
  intro users
  induction users with
  | nil => intro db _; exact ⟨rfl, rfl⟩
  | cons u rest ih =>
    intro db hnd
    have hu : u ∉ rest := (List.nodup_cons.mp hnd).1
    have hnd' : rest.Nodup := (List.nodup_cons.mp hnd).2
    rw [reconcile_cons]
    obtain ⟨h1, h2⟩ := ih
      (fun v => if v = u then (db u \ (db u \ disk u)) ∪ (disk u \ db u) else db v)
      hnd'
    simp only [List.map_cons, List.sum_cons]
    constructor
    · rw [h1]
      congr 1
      congr 1
      apply map_congr_mem
      intro v hv
      have hvu : ¬ v = u := fun h => hu (h ▸ hv)
      simp [hvu]
    · rw [h2]
      congr 1
      congr 1
      apply map_congr_mem
      intro v hv
      have hvu : ¬ v = u := fun h => hu (h ▸ hv)
      simp [hvu]

/-- A run over an index that already equals the disk changes nothing and
counts zero insertions and deletions. -/
theorem reconcile_noop (disk : String → Finset String) :
    ∀ (users : List String) (db : String → Finset String),
      (∀ u ∈ users, db u = disk u) →
      reconcile_all_users disk users db = ((0, 0), db) := by
  intro users
  induction users with
  | nil => intro db _; rfl
  | cons u rest ih =>
    intro db hall
    rw [reconcile_cons]
    have hdbu : db u = disk u := hall u (List.mem_cons_self u rest)
    have hN : (fun v => if v = u then (db u \ (db u \ disk u)) ∪ (disk u \ db u)
        else db v) = db := by
      funext v
      by_cases hv : v = u
      · subst hv
        rw [hdbu]
        simp
      · simp [hv]
    rw [hN, ih db (fun v hv => hall v (List.mem_cons_of_mem u hv)), hdbu]
    simp

/-- C6: one Reconciler run inserts exactly one index row per file on disk
but absent from the index and deletes exactly one row per indexed file
absent from disk (summed over the distinct user directories); after the
run every scanned user's rows equal their disk set, and a second run with
no intervening disk change makes zero insertions, zero deletions and
leaves the index untouched. -/
theorem reconciler_exact_and_idempotent (disk : String → Finset String)
    (users : List String) (db : String → Finset String) (hnd : users.Nodup) :
    (reconcile_all_users disk users db).1.1 =
      (users.map (fun u => (disk u \ db u).card)).sum ∧
    (reconcile_all_users disk users db).1.2 =
      (users.map (fun u => (db u \ disk u).card)).sum ∧
    (∀ u ∈ users, (reconcile_all_users disk users db).2 u = disk u) ∧
    reconcile_all_users disk users (reconcile_all_users disk users db).2 =
      ((0, 0), (reconcile_all_users disk users db).2) := by
  obtain ⟨h1, h2⟩ := reconcile_counts disk users db hnd
  have hdb : ∀ u ∈ users, (reconcile_all_users disk users db).2 u = disk u := by
    intro u hu
    rw [reconcile_db_result]
    simp [hu]
  exact ⟨h1, h2, hdb, reconcile_noop disk users _ hdb⟩

/-- Witness for C6: alice has `a`,`b` on disk and `b`,`z` indexed, bob has
`c` on disk and nothing indexed: the run inserts 2 rows (`a`, `c`),
deletes 1 (`z`), leaves both users' rows equal to disk, and a second run
is a no-op. -/
theorem reconciler_exact_and_idempotent_witness :
    (reconcile_all_users demoDisk ["alice", "bob"] demoDb).1.1 =
      ((["alice", "bob"].map (fun u => (demoDisk u \ demoDb u).card)).sum) ∧
    (reconcile_all_users demoDisk ["alice", "bob"] demoDb).1.2 =
      ((["alice", "bob"].map (fun u => (demoDb u \ demoDisk u).card)).sum) ∧
    (∀ u ∈ ["alice", "bob"],
      (reconcile_all_users demoDisk ["alice", "bob"] demoDb).2 u = demoDisk u) ∧
    reconcile_all_users demoDisk ["alice", "bob"]
        (reconcile_all_users demoDisk ["alice", "bob"] demoDb).2 =
      ((0, 0), (reconcile_all_users demoDisk ["alice", "bob"] demoDb).2) :=
  reconciler_exact_and_idempotent demoDisk ["alice", "bob"] demoDb (by decide)

/-- C8 counterexample: an `active` session a full nine days past a 1-day
retention window — older than the window and with status ≠ `imported`, so
the claim requires deletion — survives the store sweep untouched (the SQL
predicate only matches `completed`/`aborted` rows).  Moreover the
route-level sweep cannot delete anything at all: the store has no
`cleanup_stale_uploads` attribute. -/
theorem janitor_keeps_old_active_session :
    (cleanup_old_uploads [sampleSession] (10 * 86400) 1).1 = [sampleSession] ∧
    (cleanup_old_uploads [sampleSession] (10 * 86400) 1).2 = 0 ∧
    (86400 : Int) < 10 * 86400 - sampleSession.created_at ∧
    sampleSession.status ≠ "imported" ∧
    tus_store_methods.contains "cleanup_stale_uploads" = false := by
  decide

/-- C8 amended: the store-level sweep (`cleanup_old_uploads`) deletes a
session exactly when its status is `completed` or `aborted` and
`now − created_at` exceeds the retention window; a session younger than
the window survives regardless of status. -/
theorem janitor_deletes_exactly_old_terminal (sessions : List UploadRec)
    (now : Int) (days : Nat) (u : UploadRec) :
    (u ∈ (cleanup_old_uploads sessions now days).1 ↔
      u ∈ sessions ∧ ¬((u.status = "completed" ∨ u.status = "aborted") ∧
        u.created_at < now - days * 86400)) ∧
    (now - u.created_at ≤ days * 86400 → u ∈ sessions →
      u ∈ (cleanup_old_uploads sessions now days).1) := by
  have hiff : staleSession now days u = true ↔
      ((u.status = "completed" ∨ u.status = "aborted") ∧
        u.created_at < now - days * 86400) := by
    simp [staleSession]
  have hmem : u ∈ (cleanup_old_uploads sessions now days).1 ↔
      u ∈ sessions ∧ ¬((u.status = "completed" ∨ u.status = "aborted") ∧
        u.created_at < now - days * 86400) := by
    constructor
    · intro hm
      have hm' := List.mem_filter.mp hm
      refine ⟨hm'.1, ?_⟩
      intro hcond
      have hst := hiff.mpr hcond
      rw [hst] at hm'
      exact absurd hm'.2 (by decide)
    · rintro ⟨hm, hnc⟩
      apply List.mem_filter.mpr
      refine ⟨hm, ?_⟩
      cases hst : staleSession now days u
      · rfl
      · exact absurd (hiff.mp hst) hnc
  refine ⟨hmem, ?_⟩
  intro hyoung hm
  apply hmem.mpr
  refine ⟨hm, ?_⟩
  rintro ⟨_, hca⟩
  omega

/-- Witness for the amended C8: a completed session only 1000 seconds old
survives a 1-day-window sweep. -/
theorem janitor_deletes_exactly_old_terminal_witness :
    youngCompleted ∈ (cleanup_old_uploads [youngCompleted] 1000 1).1 :=
  (janitor_deletes_exactly_old_terminal [youngCompleted] 1000 1
    youngCompleted).2 (by decide) (by decide)

/-- Every counter update with a nonnegative byte delta leaves the storage
counter no smaller. -/
theorem increment_no_decrease (u : Usage) (a b : Nat) (bytes : Int)
    (hb : 0 ≤ bytes) :
    u.storage_bytes_approx ≤ (increment_usage u a b bytes).storage_bytes_approx := by
  simp only [increment_usage]
  split_ifs <;> omega

/-- A negative byte delta `−n` lowers the storage counter by at most `n`
(the clamp can make it less). -/
theorem increment_decrease_bound (u : Usage) (a b n : Nat) :
    u.storage_bytes_approx -
      (increment_usage u a b (-(n : Int))).storage_bytes_approx ≤ n := by
  simp only [increment_usage]
  split_ifs <;> omega

/-- C9: the usage counters reset to zero with the new period whenever the
stored period differs from the current one at load; within a period the
class A and class B counters never decrease and the period never changes;
the storage counter never goes negative, and it decreases only on the
transient-storage download step, by at most the size removed there. -/
theorem usage_counters_invariant (curMonth : String) (stored : Option Usage)
    (u : Usage) (e : R2Event) :
    (load_usage curMonth stored).month = curMonth ∧
    (stored.map Usage.month ≠ some curMonth →
      load_usage curMonth stored = default_usage curMonth) ∧
    u.requests_class_a ≤ (applyEvent u e).requests_class_a ∧
    u.requests_class_b ≤ (applyEvent u e).requests_class_b ∧
    (applyEvent u e).month = u.month ∧
    0 ≤ (applyEvent u e).storage_bytes_approx ∧
    ((applyEvent u e).storage_bytes_approx < u.storage_bytes_approx →
      ∃ n, e = R2Event.downloadAndDelete n ∧
        u.storage_bytes_approx - (applyEvent u e).storage_bytes_approx ≤ n) := by
  refine ⟨?_, ?_, ?_, ?_, ?_, ?_, ?_⟩
  · cases stored with
    | none => rfl
    | some d =>
      by_cases hm : d.month = curMonth
      · simp [load_usage, hm, default_usage]
      · simp [load_usage, hm, default_usage]
  · intro hne
    cases stored with
    | none => rfl
    | some d =>
      have hd : d.month ≠ curMonth := by simpa using hne
      simp [load_usage, hd]
  · cases e <;> simp [applyEvent, increment_usage]
  · cases e <;> simp [applyEvent, increment_usage]
  · cases e <;> rfl
  · cases e <;> (simp only [applyEvent, increment_usage]; split_ifs <;> omega)
  · intro hdec
    cases e with
    | presignPut =>
      exact absurd hdec (not_lt.mpr (increment_no_decrease u 1 0 0 le_rfl))
    | presignGet =>
      exact absurd hdec (not_lt.mpr (increment_no_decrease u 0 1 0 le_rfl))
    | createMultipart =>
      exact absurd hdec (not_lt.mpr (increment_no_decrease u 1 0 0 le_rfl))
    | deleteObject =>
      exact absurd hdec (not_lt.mpr (increment_no_decrease u 1 0 0 le_rfl))
    | uploadFile size =>
      exact absurd hdec
        (not_lt.mpr (increment_no_decrease u 1 0 size (Int.natCast_nonneg size)))
    | downloadAndDelete n =>
      exact ⟨n, rfl, increment_decrease_bound u 0 1 n⟩
    | downloadNoSize =>
      exact absurd hdec (not_lt.mpr (increment_no_decrease u 0 1 0 le_rfl))

/-- Witness for C9: loading a December record in January resets the
counters, and a 2-byte transient download lowers the storage counter by
at most 2. -/
theorem usage_counters_invariant_witness :
    load_usage "2026-01" (some demoUsage) = default_usage "2026-01" ∧
    (∃ n, R2Event.downloadAndDelete 2 = R2Event.downloadAndDelete n ∧
      demoUsage.storage_bytes_approx -
        (applyEvent demoUsage (R2Event.downloadAndDelete 2)).storage_bytes_approx
        ≤ n) :=
  ⟨(usage_counters_invariant "2026-01" (some demoUsage) demoUsage
      R2Event.presignPut).2.1 (by decide),
   (usage_counters_invariant "2026-01" (some demoUsage) demoUsage
      (R2Event.downloadAndDelete 2)).2.2.2.2.2.2 (by decide)⟩

end Filetree
